import Mathlib

/-
Verification of the UI2GA repository: a shallow embedding of the
viewport/selection geometry, annotation rendering, result editing and the
sequential batch-analysis pipeline, with theorems settling the frozen
claims about the natural-language specification.

Coordinates and pixel quantities are modelled as rationals; JS numbers in
the relevant code paths hold exact decimal values for which rational
arithmetic is faithful.  item_no values are modelled as integers.
-/

namespace UI2GA

/-! ## Selection and viewport geometry (src/unnamed/part_000, ImageWorkspace) -/

/-- A normalized rectangle, the shape of SelectionRect and of an
annotation bbox: x, y, w, h relative to the image, intended in [0,1]. -/
structure SelectionRect where
  x : ℚ
  y : ℚ
  w : ℚ
  h : ℚ
deriving DecidableEq, Repr

/-- Math.min(Math.max(0, v), 1), the clamp used by getNormalizedCoords. -/
def clamp01 (v : ℚ) : ℚ := min (max 0 v) 1

/-- getNormalizedCoords (part_000 lines 175-184): converts a mouse event
position to image-normalized coordinates relative to the on-screen
bounding box of the image, clamping each axis to [0,1].  Arguments are
the event clientX/clientY and the image bounding rectangle left, top,
width and height. -/
def getNormalizedCoords (cx cy rectLeft rectTop rectWidth rectHeight : ℚ) : ℚ × ℚ :=
  (clamp01 ((cx - rectLeft) / rectWidth), clamp01 ((cy - rectTop) / rectHeight))

/-- The rectangle derived on mouse-up (part_000 lines 226-229):
x = min of the endpoint xs, y = min of the endpoint ys, sizes are the
absolute coordinate differences, independent of the drag direction. -/
def deriveRect (startPos currentPos : ℚ × ℚ) : SelectionRect :=
  { x := min startPos.1 currentPos.1
    y := min startPos.2 currentPos.2
    w := |currentPos.1 - startPos.1|
    h := |currentPos.2 - startPos.2| }

/-- The externally visible effect of handleMouseUp on the selection state. -/
inductive MouseUpAction where
  | storeSelection (r : SelectionRect)
  | annotate (r : SelectionRect)
  | clearSelection
  | noop
deriving DecidableEq, Repr

/-- The rectangle a MouseUpAction stores or commits, if any. -/
def actionRect : MouseUpAction → Option SelectionRect
  | .storeSelection r => some r
  | .annotate r => some r
  | .clearSelection => none
  | .noop => none

/-- handleMouseUp (part_000 lines 215-241), selection branch: for a
completed drag with recorded start and current positions, if both the
width and the height strictly exceed 0.005 the rectangle is committed as
an annotation (annotation mode, overlay data present) or stored as the
pending selection; otherwise in plain selection mode the pending
selection is cleared (onSelectionChange undefined) and in annotation
mode nothing happens. -/
def handleMouseUpAction (isAnnotationMode : Bool) (startPos currentPos : ℚ × ℚ) :
    MouseUpAction :=
  let r := deriveRect startPos currentPos
  if (0.005 : ℚ) < r.w ∧ (0.005 : ℚ) < r.h then
    if isAnnotationMode then .annotate r else .storeSelection r
  else if !isAnnotationMode then .clearSelection
  else .noop

/-- handleWheel (part_000 line 157): the zoom factor is 1.05 for wheel-up
and 0.95 for wheel-down. -/
def wheelZoomFactor (deltaY : ℚ) : ℚ := if deltaY < 0 then 1.05 else 0.95

/-- handleWheel (part_000 line 158): Math.min(Math.max(0.05, zoom * factor), 10). -/
def wheelZoom (zoom deltaY : ℚ) : ℚ :=
  min (max 0.05 (zoom * wheelZoomFactor deltaY)) 10

/-- Toolbar zoom-out button (part_000 line 317): Math.max(0.05, zoom * 0.9). -/
def toolbarZoomOut (zoom : ℚ) : ℚ := max 0.05 (zoom * 0.9)

/-- Toolbar zoom-in button (part_000 line 319): Math.min(10, zoom * 1.1). -/
def toolbarZoomIn (zoom : ℚ) : ℚ := min 10 (zoom * 1.1)

/-- fitToScreen (part_000 lines 68-87): with a 64 pixel padding,
zoom = min(availableWidth / naturalWidth, availableHeight / naturalHeight, 1).
Arguments are the container client width/height and the image natural
width/height. -/
def fitToScreenZoom (cw ch nw nh : ℚ) : ℚ :=
  min (min ((cw - 64) / nw) ((ch - 64) / nh)) 1

/-! ## Label badge placement (part_000 canvas export and overlay, AnalysisResult.tsx SVG export) -/

/-- A badge rectangle in the pixel space of the rendering it belongs to:
left and top of the filled background, and its width and height. -/
structure BadgeRect where
  left : ℚ
  top : ℚ
  width : ℚ
  height : ℚ
deriving DecidableEq, Repr

/-- Font size used by the canvas export (part_000 line 264):
Math.max(48, Math.round(canvas.width * 0.03)). -/
def canvasFontSize (canvasWidth : ℚ) : ℚ :=
  max 48 ((round (canvasWidth * 0.03) : ℤ) : ℚ)

/-- Badge background drawn by downloadAnnotatedImage (part_000 lines
269-280): for item_no 1 the rect starts at the box top edge (y) and
extends down by fs + 16; for every other item it starts at
y - fs - 16, i.e. sits immediately above the top edge.  x and y are the
box corner in canvas pixels, textWidth the measured item-number width. -/
def canvasBadgeRect (itemNo : ℤ) (x y canvasWidth textWidth : ℚ) : BadgeRect :=
  let fs := canvasFontSize canvasWidth
  if itemNo = 1 then
    { left := x, top := y, width := textWidth + 32, height := fs + 16 }
  else
    { left := x, top := y - fs - 16, width := textWidth + 32, height := fs + 16 }

/-- Badge rect emitted by exportFigmaSVG (AnalysisResult.tsx lines
138-145): a fixed 32 x 28 rect whose y is the box top (by) for item_no 1
and by - 28 otherwise.  bx and by are the box corner in image pixels. -/
def svgBadgeRect (itemNo : ℤ) (bx bY : ℚ) : BadgeRect :=
  if itemNo = 1 then
    { left := bx, top := bY, width := 32, height := 28 }
  else
    { left := bx, top := bY - 28, width := 32, height := 28 }

/-- Badge div of the interactive overlay (part_000 lines 392-394), in
screen pixels relative to the annotation box top-left corner: classes
-left-[4px] with min-w-[32px] h-[32px], and top-0 for item_no 1 versus
-top-[32px] for every other item (width modelled at its 32px minimum). -/
def overlayBadgeRect (itemNo : ℤ) : BadgeRect :=
  if itemNo = 1 then
    { left := -4, top := 0, width := 32, height := 32 }
  else
    { left := -4, top := -32, width := 32, height := 32 }

/-! ## Events, annotations and row deletion (src/unnamed/part_005) -/

/-- A tagging record; the five fields of the event table. -/
structure TaggingEvent where
  item_no : ℤ
  event_category : String
  event_action : String
  event_label : String
  description : String
deriving DecidableEq, Repr

/-- A detected or user-created overlay marker. -/
structure OverlayAnnotation where
  item_no : ℤ
  label : String
  bbox : SelectionRect
  confidence : ℚ
  display_priority : ℚ
deriving DecidableEq, Repr

/-- One Document analysis result: its events and annotations. -/
structure ScreenAnalysis where
  events : List TaggingEvent
  annotations : List OverlayAnnotation
deriving DecidableEq, Repr

/-- The events that remain after deleting itemNo, sorted ascending by
item_no (handleDeleteRow, part_005 lines 342-343: filter then
sort((a, b) => a.item_no - b.item_no); List.mergeSort is stable, as the
JS sort is). -/
def sortRemaining (itemNo : ℤ) (cur : ScreenAnalysis) : List TaggingEvent :=
  (cur.events.filter (fun e => e.item_no ≠ itemNo)).mergeSort
    (fun a b => a.item_no ≤ b.item_no)

/-- The forEach of handleDeleteRow (part_005 lines 347-351) that pushes
each remaining event with item_no reassigned to its position index plus
one; i is the next index to assign (the loop starts it at 1). -/
def renumberEvents : ℕ → List TaggingEvent → List TaggingEvent
  | _, [] => []
  | i, e :: rest => { e with item_no := (i : ℤ) } :: renumberEvents (i + 1) rest

/-- The idMap built by the same forEach: it maps each remaining event old
item_no to its new number i (position index plus one). -/
def buildIdMap : ℕ → List TaggingEvent → List (ℤ × ℕ)
  | _, [] => []
  | i, e :: rest => (e.item_no, i) :: buildIdMap (i + 1) rest

/-- Lookup in the idMap with JS Map semantics: a later set for the same
key overwrites an earlier one, so the last matching entry wins. -/
def mapGet (m : List (ℤ × ℕ)) (k : ℤ) : Option ℕ :=
  (m.reverse.find? (fun p => p.1 == k)).map (fun p => p.2)

/-- handleDeleteRow (part_005 lines 339-354): remove every event with the
given item_no, renumber the survivors 1..n in item_no order, keep exactly
the annotations whose item_no appears in the idMap and rewrite each kept
annotation item_no through the idMap. -/
def deleteRow (itemNo : ℤ) (cur : ScreenAnalysis) : ScreenAnalysis :=
  let sorted := sortRemaining itemNo cur
  let newEvents := renumberEvents 1 sorted
  let idMap := buildIdMap 1 sorted
  let newAnns := cur.annotations.filterMap (fun a =>
    match mapGet idMap a.item_no with
    | some n => some { a with item_no := (n : ℤ) }
    | none => none)
  { events := newEvents, annotations := newAnns }

/-! ## JSON values, response parsing and the bulk JSON editor -/

/-- A JSON value as produced by JSON.parse: the dynamic shape every parsed
Analyzer response and every bulk-edited events payload has at runtime. -/
inductive JValue where
  | null
  | bool (b : Bool)
  | num (q : ℚ)
  | str (s : String)
  | arr (elems : List JValue)
  | obj (fields : List (String × JValue))
deriving BEq, Repr

/-- JS truthiness of a JSON.parse result: null, false, 0 and the empty
string are falsy; every array and object is truthy. -/
def truthy : JValue → Bool
  | .null => false
  | .bool b => b
  | .num q => q != 0
  | .str s => s != ""
  | .arr _ => true
  | .obj _ => true

/-- Property access v.key on a parsed value: defined for objects, where a
later duplicate key overwrites an earlier one (as in JSON.parse), and
absent (undefined) otherwise. -/
def getField (v : JValue) (key : String) : Option JValue :=
  match v with
  | .obj fields => (fields.reverse.find? (fun p => p.1 == key)).map (fun p => p.2)
  | _ => none

def keyEvents : String := "events"
def keyAnnotations : String := "annotations"
def keyScreens : String := "screens"
def keyScreenshotId : String := "screenshot_id"
def keyItemNo : String := "item_no"
def keyEventCategory : String := "event_category"
def keyEventAction : String := "event_action"
def keyEventLabel : String := "event_label"
def keyDescription : String := "description"
def msgJsonSyntax : String := "Invalid JSON syntax"
def msgJsonStructure : String := "Invalid JSON structure: missing events array"

/-- commitJsonEdit (AnalysisResult.tsx lines 219-231).  The first argument
is the JSON.parse outcome of the textarea content (none models a syntax
error).  The state is the events array of the active Document result as
the raw runtime values the cast `parsed.events as TaggingEvent[]` leaves
there.  Returns the resulting events plus the error message shown, if
any: the edit is accepted exactly when the parse succeeded, the top-level
value is truthy and its events property is an array; the array elements
themselves are passed to onUpdateEvents unchecked. -/
def commitJsonEdit (parsed : Option JValue) (prevEvents : List JValue) :
    List JValue × Option String :=
  match parsed with
  | none => (prevEvents, some msgJsonSyntax)
  | some v =>
    if truthy v then
      match getField v keyEvents with
      | some (.arr evs) => (evs, none)
      | _ => (prevEvents, some msgJsonStructure)
    else (prevEvents, some msgJsonStructure)

/-- Modelled from the spec: a well-formed Event in the sense of the
Table/editor contract, an object carrying all five required fields
(item_no, event_category, event_action, event_label, description).  The
source has no such check; this definition exists only to state the claim
that it performs one. -/
def specWellFormedEvent (v : JValue) : Bool :=
  ((getField v keyItemNo).isSome &&
    (getField v keyEventCategory).isSome &&
    (getField v keyEventAction).isSome &&
    (getField v keyEventLabel).isSome) &&
    (getField v keyDescription).isSome

/-- One screen entry of a parsed Analyzer response before any typing: the
raw events and annotations arrays as JSON.parse produced them. -/
structure ScreenAnalysisRaw where
  events : List JValue
  annotations : List JValue
deriving BEq, Repr

/-- Assoc-list update with JS object-write semantics: appending a later
entry for the same key overwrites the earlier one under jget. -/
def jget {α : Type} (m : List (String × α)) (k : String) : Option α :=
  (m.reverse.find? (fun p => p.1 == k)).map (fun p => p.2)

/-- Array.isArray(x) ? x : [] applied to an optional field value
(parseGeminiResponse lines 112-113 of geminiService.ts): a missing or
non-array field defaults to the empty array. -/
def arrayOrEmpty : Option JValue → List JValue
  | some (.arr elems) => elems
  | _ => []

/-- parseGeminiResponse (geminiService.ts lines 103-120) applied to the
extractJson result (none models an unparseable response body).  When the
extracted value is truthy and has a screens array, every screen with a
truthy string screenshot_id contributes a results entry whose events and
annotations each default to [] unless the field is an array.  Screens
whose screenshot_id is missing, empty or not a string are skipped (JS
would coerce a non-string truthy id to a string key; no Analyzer schema
or claim exercises that). -/
def parseGeminiResponse (extracted : Option JValue) :
    List (String × ScreenAnalysisRaw) :=
  match extracted with
  | none => []
  | some v =>
    if truthy v then
      match getField v keyScreens with
      | some (.arr screens) =>
        screens.foldl (fun acc screen =>
          match getField screen keyScreenshotId with
          | some (.str sid) =>
            if sid ≠ "" then
              acc ++ [(sid,
                { events := arrayOrEmpty (getField screen keyEvents)
                  annotations := arrayOrEmpty (getField screen keyAnnotations) })]
            else acc
          | _ => acc) []
      | _ => []
    else []

/-! ## Sequential batch pipeline (handleAnalyze, src/unnamed/part_005 lines 237-318) -/

def msgMissingApiKey : String := "MISSING_API_KEY"

/-- How one awaited analyzeImage call for a target settles, as observed by
the loop body of handleAnalyze:
ok carries the ParsedAnalysis results map the call resolved with;
abortError is a rejection whose name is AbortError, or a resolution with
the cancellation token already signaled (both paths break the loop);
missingKey is the MISSING_API_KEY rejection, rethrown as the run-level
error; otherError is any other rejection, logged and skipped. -/
inductive Outcome (α : Type) where
  | ok (results : List (String × α))
  | abortError
  | missingKey
  | otherError

/-- State accumulated by the for-loop of handleAnalyze: the results map,
the processedIds (in processing order), whether the loop ended via the
cancellation token, and the run-level error the loop threw, if any. -/
structure LoopResult (α : Type) where
  map : List (String × α)
  processed : List String
  aborted : Bool
  fatal : Option String

/-- The for-loop of handleAnalyze (part_005 lines 262-297) over the
targets paired with how each call would settle, starting from the current
results map.  A successful response contributes a result and a processed
id only if it contains an entry for the target id; an AbortError (or a
token signaled during the call) stops the loop at once; MISSING_API_KEY
is rethrown, ending the run with a run-level error; any other per-item
failure is logged and the loop continues. -/
def processLoop {α : Type} :
    List (String × Outcome α) → List (String × α) → LoopResult α
  | [], m => { map := m, processed := [], aborted := false, fatal := none }
  | (id, o) :: rest, m =>
    match o with
    | .ok pa =>
      match jget pa id with
      | some data =>
        let r := processLoop rest (m ++ [(id, data)])
        { map := r.map, processed := id :: r.processed
          aborted := r.aborted, fatal := r.fatal }
      | none => processLoop rest m
    | .abortError => { map := m, processed := [], aborted := true, fatal := none }
    | .missingKey =>
      { map := m, processed := [], aborted := false, fatal := some msgMissingApiKey }
    | .otherError => processLoop rest m

/-- Observable end state of one handleAnalyze run: the results map, the
processed ids, the abort flag, the surfaced run-level error, the set of
this run targets marked canceled-or-failed at the end (the red
Canceled/Failed dot; canceledIds is reset for the targets when the run
starts), and the completion summary feedback (completed count, total). -/
structure BatchResult (α : Type) where
  map : List (String × α)
  processed : List String
  aborted : Bool
  runError : Option String
  canceled : List String
  summary : Option (ℕ × ℕ)

/-- handleAnalyze (part_005 lines 237-318) for a started run: runs the
sequential loop, then the finally block: only when the cancellation token
was signaled are the unprocessed targets added to canceledIds and the
completed-of-total summary published; a run ended by a run-level error or
by per-item failures leaves canceledIds (already reset for these targets)
and the summary untouched. -/
def runBatch {α : Type} (items : List (String × Outcome α))
    (r0 : List (String × α)) : BatchResult α :=
  let lr := processLoop items r0
  { map := lr.map
    processed := lr.processed
    aborted := lr.aborted
    runError := lr.fatal
    canceled :=
      if lr.aborted then
        (items.map (fun p => p.1)).filter (fun id => ¬ id ∈ lr.processed)
      else []
    summary := if lr.aborted then some (lr.processed.length, items.length) else none }

/-- Status dot shown for a target in the sidebar after the run (part_005
line 511): Canceled/Failed when the id is in canceledIds, else Completed
when a result exists for it, else nothing (pending). -/
inductive ItemStatus where
  | completed
  | canceledOrFailed
  | pending
deriving DecidableEq, Repr

def statusOf {α : Type} (br : BatchResult α) (id : String) : ItemStatus :=
  if id ∈ br.canceled then .canceledOrFailed
  else if (jget br.map id).isSome then .completed
  else .pending

/-! ## Cancellation timing of the in-flight call (geminiService.ts vs part_001) -/

/-- How one awaited promise settles: at which step count, and whether it
resolved with the Analyzer result or rejected with AbortError. -/
inductive PromiseResult where
  | resolved
  | rejectedAbort
deriving DecidableEq, Repr

structure SettledPromise where
  time : ℕ
  result : PromiseResult
deriving DecidableEq, Repr

/-- Promise.race of two promises: settles when and as the earlier of the
two settles (on a tie, the first-listed wins, as in JS). -/
def race (a b : SettledPromise) : SettledPromise :=
  if a.time ≤ b.time then a else b

/-- analyzeImage in src/services/geminiService.ts (lines 71-100): the
generateContent promise is awaited bare, so the await settles only when
the external call finishes after callLatency steps; signal.aborted is
consulted afterwards, turning the already-complete result into an
AbortError whenever the token fired at or before that point.  abortAt is
the step at which cancellation was signaled, if at all. -/
def geminiServiceAwait (callLatency : ℕ) (abortAt : Option ℕ) : SettledPromise :=
  { time := callLatency
    result :=
      match abortAt with
      | some t => if t ≤ callLatency then .rejectedAbort else .resolved
      | none => .resolved }

/-- analyzeImage in src/unnamed/part_001 (lines 257-295): the
generateContent promise is raced against a promise that rejects with
AbortError the moment the signal fires, so the await settles at the
earlier of the call completion and the abort. -/
def racedAwait (callLatency : ℕ) (abortAt : Option ℕ) : SettledPromise :=
  match abortAt with
  | some t => race { time := callLatency, result := .resolved }
      { time := t, result := .rejectedAbort }
  | none => { time := callLatency, result := .resolved }

/-! ## Auxiliary definitions for stating the claims -/

/-- The bbox bounds invariant: the rectangle lies inside the unit square. -/
def rectInBounds (r : SelectionRect) : Prop :=
  0 ≤ r.x ∧ 0 ≤ r.y ∧ r.x + r.w ≤ 1 ∧ r.y + r.h ≤ 1

/-- Sample sequential Document ids of the form the ingestion path assigns. -/
def idA : String := "A0001"
def idB : String := "A0002"
def idC : String := "A0003"

/-- An empty analysis result payload, for concrete batch scenarios. -/
def emptyRaw : ScreenAnalysisRaw := { events := [], annotations := [] }

def sampleText : String := "x"

/-- A concrete event with the given item_no, for the delete scenario. -/
def sampleEvent (n : ℤ) : TaggingEvent :=
  { item_no := n, event_category := sampleText, event_action := sampleText
    event_label := sampleText, description := sampleText }

/-- A concrete annotation paired with the event of the same item_no. -/
def sampleAnn (n : ℤ) : OverlayAnnotation :=
  { item_no := n, label := sampleText, bbox := SelectionRect.mk 0 0 1 1
    confidence := 1, display_priority := 1 }

/-- The spec example Document result with items {1, 2, 3}. -/
def sampleAnalysis : ScreenAnalysis :=
  { events := [sampleEvent 1, sampleEvent 2, sampleEvent 3]
    annotations := [sampleAnn 1, sampleAnn 2, sampleAnn 3] }

/-! ## Helper lemmas -/

theorem clamp01_nonneg (v : ℚ) : 0 ≤ clamp01 v :=
  le_min (le_max_left 0 v) (by norm_num)

theorem clamp01_le_one (v : ℚ) : clamp01 v ≤ 1 := min_le_right _ _

theorem deriveRect_bounds {p0 p1 : ℚ × ℚ}
    (h00 : 0 ≤ p0.1) (h01 : p0.1 ≤ 1) (h02 : 0 ≤ p0.2) (h03 : p0.2 ≤ 1)
    (h10 : 0 ≤ p1.1) (h11 : p1.1 ≤ 1) (h12 : 0 ≤ p1.2) (h13 : p1.2 ≤ 1) :
    rectInBounds (deriveRect p0 p1) := by
  refine ⟨le_min h00 h10, le_min h02 h12, ?_, ?_⟩
  · show min p0.1 p1.1 + |p1.1 - p0.1| ≤ 1
    rcases le_total p0.1 p1.1 with h | h
    · rw [min_eq_left h, abs_of_nonneg (by linarith)]
      linarith
    · rw [min_eq_right h, abs_of_nonpos (by linarith)]
      linarith
  · show min p0.2 p1.2 + |p1.2 - p0.2| ≤ 1
    rcases le_total p0.2 p1.2 with h | h
    · rw [min_eq_left h, abs_of_nonneg (by linarith)]
      linarith
    · rw [min_eq_right h, abs_of_nonpos (by linarith)]
      linarith

theorem deriveRect_of_le {a b c d : ℚ} (h1 : a ≤ c) (h2 : b ≤ d) :
    deriveRect (a, b) (c, d) = SelectionRect.mk a b (c - a) (d - b) := by
  unfold deriveRect
  rw [min_eq_left h1, min_eq_left h2, abs_of_nonneg (by linarith),
    abs_of_nonneg (by linarith)]

theorem actionRect_eq_deriveRect {mode : Bool} {p0 p1 : ℚ × ℚ} {r : SelectionRect}
    (h : r ∈ actionRect (handleMouseUpAction mode p0 p1)) : r = deriveRect p0 p1 := by
  rw [Option.mem_def] at h
  unfold handleMouseUpAction at h
  by_cases hc : (0.005 : ℚ) < (deriveRect p0 p1).w ∧ (0.005 : ℚ) < (deriveRect p0 p1).h
  · rw [if_pos hc] at h
    cases mode <;> simp [actionRect] at h <;> exact h.symm
  · rw [if_neg hc] at h
    cases mode <;> simp [actionRect] at h

/-! ## Claim theorems -/

/-- C6 counterexample: fitToScreen with a 100 x 100 container and a
1000 x 1000 image produces zoom 9/250 = 0.036, strictly below the claimed
lower bound 0.05; the fit-to-screen zoom is not clamped to [0.05, 10]. -/
theorem fitToScreen_zoom_below_bound :
    fitToScreenZoom 100 100 1000 1000 = 9 / 250 ∧
      ¬ ((0.05 : ℚ) ≤ fitToScreenZoom 100 100 1000 1000) := by
  constructor <;> norm_num [fitToScreenZoom]

/-- C6 (amended): wheel zoom always lands in [0.05, 10], whatever the
current zoom — including out-of-range values fit-to-screen itself can
produce — because it clamps on both sides; the toolbar zoom buttons,
which each clamp on one side only, land in [0.05, 10] whenever the
current zoom is in that interval; fit-to-screen only guarantees an upper
bound of 1 and can fall below 0.05. -/
theorem zoom_ops_clamped (zoom deltaY : ℚ) :
    ((0.05 : ℚ) ≤ wheelZoom zoom deltaY ∧ wheelZoom zoom deltaY ≤ 10) ∧
    ((0.05 : ℚ) ≤ zoom → zoom ≤ 10 →
      ((0.05 : ℚ) ≤ toolbarZoomOut zoom ∧ toolbarZoomOut zoom ≤ 10) ∧
      ((0.05 : ℚ) ≤ toolbarZoomIn zoom ∧ toolbarZoomIn zoom ≤ 10)) ∧
    (∀ cw ch nw nh : ℚ, fitToScreenZoom cw ch nw nh ≤ 1) := by
  unfold wheelZoom toolbarZoomOut toolbarZoomIn
  refine ⟨⟨le_min (le_max_left _ _) (by norm_num), min_le_right _ _⟩,
    fun hlo hhi =>
      ⟨⟨le_max_left _ _, max_le (by norm_num) (by linarith)⟩,
        ⟨le_min (by norm_num) (by linarith), min_le_left _ _⟩⟩,
    fun cw ch nw nh => min_le_right _ _⟩

theorem zoom_ops_clamped_witness :
    ((0.05 : ℚ) ≤ wheelZoom (9 / 250) 1 ∧ wheelZoom (9 / 250) 1 ≤ 10) ∧
    ((0.05 : ℚ) ≤ toolbarZoomIn 1 ∧ toolbarZoomIn 1 ≤ 10) :=
  ⟨(zoom_ops_clamped (9 / 250) 1).1,
    ((zoom_ops_clamped 1 1).2.1 (by norm_num) (by norm_num)).2⟩

/-- C9 counterexample: the drag from (0,0) to (0.005, 0.5) derives a
rectangle whose width is exactly the 0.005 threshold; it meets the
threshold on both axes, yet the code (which requires w and h strictly
greater than 0.005) treats the gesture as a click and clears the pending
selection instead of storing the rectangle. -/
theorem selection_threshold_boundary :
    handleMouseUpAction false (0, 0) (1 / 200, 1 / 2) = MouseUpAction.clearSelection ∧
    (0.005 : ℚ) ≤ (deriveRect (0, 0) (1 / 200, 1 / 2)).w ∧
    (0.005 : ℚ) ≤ (deriveRect (0, 0) (1 / 200, 1 / 2)).h := by
  have hd : deriveRect ((0 : ℚ), (0 : ℚ)) (1 / 200, 1 / 2) =
      SelectionRect.mk 0 0 (1 / 200) (1 / 2) := by
    have := deriveRect_of_le (a := (0 : ℚ)) (b := (0 : ℚ)) (c := 1 / 200) (d := 1 / 2)
      (by norm_num) (by norm_num)
    simpa using this
  refine ⟨?_, by rw [hd]; norm_num, by rw [hd]; norm_num⟩
  unfold handleMouseUpAction
  rw [hd, if_neg (by norm_num)]
  rfl

/-- C9 (amended): a completed drag whose derived rectangle has width or
height at or below 0.005 stores no SelectionRect: in plain selection mode
it clears the pending selection, in annotation mode it leaves state
unchanged; a rectangle whose width and height both strictly exceed 0.005
is stored as the pending selection, or committed as an annotation in
annotation mode. -/
theorem mouseUp_threshold_rule (mode : Bool) (sp cp : ℚ × ℚ) :
    (((deriveRect sp cp).w ≤ 0.005 ∨ (deriveRect sp cp).h ≤ 0.005) →
      actionRect (handleMouseUpAction mode sp cp) = none ∧
      (mode = false → handleMouseUpAction mode sp cp = MouseUpAction.clearSelection) ∧
      (mode = true → handleMouseUpAction mode sp cp = MouseUpAction.noop)) ∧
    ((0.005 : ℚ) < (deriveRect sp cp).w → (0.005 : ℚ) < (deriveRect sp cp).h →
      handleMouseUpAction mode sp cp =
        if mode then MouseUpAction.annotate (deriveRect sp cp)
        else MouseUpAction.storeSelection (deriveRect sp cp)) := by
  constructor
  · intro hsub
    have hc : ¬ ((0.005 : ℚ) < (deriveRect sp cp).w ∧
        (0.005 : ℚ) < (deriveRect sp cp).h) := by
      rcases hsub with h | h
      · exact fun hx => absurd hx.1 (not_lt.mpr h)
      · exact fun hx => absurd hx.2 (not_lt.mpr h)
    unfold handleMouseUpAction
    rw [if_neg hc]
    cases mode <;> simp [actionRect]
  · intro h1 h2
    unfold handleMouseUpAction
    rw [if_pos ⟨h1, h2⟩]

theorem mouseUp_threshold_rule_witness :
    handleMouseUpAction false (0, 0) (1 / 1000, 1 / 2) = MouseUpAction.clearSelection :=
  ((mouseUp_threshold_rule false (0, 0) (1 / 1000, 1 / 2)).1
    (Or.inl (by
      have := deriveRect_of_le (a := (0 : ℚ)) (b := (0 : ℚ)) (c := 1 / 1000)
        (d := 1 / 2) (by norm_num) (by norm_num)
      rw [this]
      norm_num))).2.1 rfl

/-- C10: every rectangle a completed drag stores as a pending
SelectionRect or commits as an annotation bbox satisfies 0 ≤ x, 0 ≤ y,
x + w ≤ 1 and y + h ≤ 1, because getNormalizedCoords clamps both endpoint
coordinates to [0,1] before the min and absolute-difference computation,
whatever the raw pointer position relative to the image bounds. -/
theorem drag_rect_in_unit_square (mode : Bool) (cx0 cy0 cx1 cy1 rl rt rw rh : ℚ) :
    ∀ r ∈ actionRect (handleMouseUpAction mode
      (getNormalizedCoords cx0 cy0 rl rt rw rh)
      (getNormalizedCoords cx1 cy1 rl rt rw rh)), rectInBounds r := by
  intro r hr
  rw [actionRect_eq_deriveRect hr]
  exact deriveRect_bounds (clamp01_nonneg _) (clamp01_le_one _) (clamp01_nonneg _)
    (clamp01_le_one _) (clamp01_nonneg _) (clamp01_le_one _) (clamp01_nonneg _)
    (clamp01_le_one _)

theorem drag_rect_in_unit_square_witness :
    rectInBounds (SelectionRect.mk (1 / 10) (1 / 10) (1 / 2) (1 / 2)) := by
  have hmem : SelectionRect.mk (1 / 10) (1 / 10) (1 / 2) (1 / 2) ∈
      actionRect (handleMouseUpAction false
        (getNormalizedCoords 10 10 0 0 100 100)
        (getNormalizedCoords 60 60 0 0 100 100)) := by
    have h0 : getNormalizedCoords 10 10 0 0 100 100 = ((1 : ℚ) / 10, (1 : ℚ) / 10) := by
      unfold getNormalizedCoords clamp01
      norm_num
    have h1 : getNormalizedCoords 60 60 0 0 100 100 = ((3 : ℚ) / 5, (3 : ℚ) / 5) := by
      unfold getNormalizedCoords clamp01
      norm_num
    rw [h0, h1]
    have hd : deriveRect ((1 : ℚ) / 10, (1 : ℚ) / 10) ((3 : ℚ) / 5, (3 : ℚ) / 5) =
        SelectionRect.mk (1 / 10) (1 / 10) (1 / 2) (1 / 2) := by
      rw [deriveRect_of_le (by norm_num) (by norm_num)]
      norm_num
    unfold handleMouseUpAction
    rw [hd, if_pos (by norm_num)]
    rfl
  exact drag_rect_in_unit_square false 10 10 60 60 0 0 100 100 _ hmem

/-- C2 (code bug witness): with an external call that takes 100 steps and
a cancellation signaled at step 1, analyzeImage in
src/services/geminiService.ts still settles only at step 100 — the full
call latency — and merely discards the finished result as an AbortError,
whereas the Promise.race variant in src/unnamed/part_001 settles at
step 1; the in-repo service does not let the awaited call observe the
token, contradicting the mandated race-based cancellation. -/
theorem inflight_abort_not_interrupting :
    geminiServiceAwait 100 (some 1) =
      SettledPromise.mk 100 PromiseResult.rejectedAbort ∧
    racedAwait 100 (some 1) = SettledPromise.mk 1 PromiseResult.rejectedAbort ∧
    (geminiServiceAwait 100 (some 1)).time ≠ (racedAwait 100 (some 1)).time := by
  decide

/-- C8 (amended): the special-case placement rule is the same in all
three renderings — the badge of the annotation with item_no 1 has its top
edge on the box top edge (inside the box), and every other badge sits
with its bottom edge on the box top edge (directly above it) — for the
canvas export, the SVG export and the interactive overlay (the overlay in
box-relative coordinates, box top = 0); the renderings are not
pixel-identical, only this attachment rule is shared. -/
theorem badge_placement_rule (itemNo : ℤ) (x y cw tw : ℚ) :
    (itemNo = 1 →
      (canvasBadgeRect itemNo x y cw tw).top = y ∧
      (svgBadgeRect itemNo x y).top = y ∧
      (overlayBadgeRect itemNo).top = 0) ∧
    (itemNo ≠ 1 →
      (canvasBadgeRect itemNo x y cw tw).top +
        (canvasBadgeRect itemNo x y cw tw).height = y ∧
      (svgBadgeRect itemNo x y).top + (svgBadgeRect itemNo x y).height = y ∧
      (overlayBadgeRect itemNo).top + (overlayBadgeRect itemNo).height = 0) := by
  constructor
  · intro h
    simp [canvasBadgeRect, svgBadgeRect, overlayBadgeRect, h]
  · intro h
    simp only [canvasBadgeRect, svgBadgeRect, overlayBadgeRect, if_neg h]
    refine ⟨by ring, by ring, by norm_num⟩

theorem badge_placement_rule_witness :
    (canvasBadgeRect 1 5 7 1000 20).top = 7 ∧
    (svgBadgeRect 2 5 7).top + (svgBadgeRect 2 5 7).height = 7 :=
  ⟨((badge_placement_rule 1 5 7 1000 20).1 rfl).1,
    ((badge_placement_rule 2 5 7 1000 20).2 (by decide)).2.1⟩

/-- C8 counterexample: at the same native image position (box top y = 100,
image width 1000), the canvas export draws the badge of item 2 with its
top at 100 - 48 - 16 = 36 while the SVG export draws it with its top at
100 - 28 = 72: the two static export renderings are not pixel-identical,
only the above/below attachment rule agrees. -/
theorem export_badges_not_pixel_identical :
    (canvasBadgeRect 2 0 100 1000 20).top = 36 ∧
    (svgBadgeRect 2 0 100).top = 72 ∧
    (canvasBadgeRect 2 0 100 1000 20).top ≠ (svgBadgeRect 2 0 100).top := by
  have hfs : canvasFontSize 1000 = 48 := by
    unfold canvasFontSize
    have hr : round ((1000 : ℚ) * 0.03) = (30 : ℤ) := by norm_num [round_eq]
    rw [hr, max_eq_left (by norm_num)]
  have h1 : (canvasBadgeRect 2 0 100 1000 20).top = 36 := by
    unfold canvasBadgeRect
    rw [if_neg (by decide), hfs]
    norm_num
  have h2 : (svgBadgeRect 2 0 100).top = 72 := by
    unfold svgBadgeRect
    rw [if_neg (by decide)]
    norm_num
  exact ⟨h1, h2, by rw [h1, h2]; norm_num⟩

/-- C5 counterexample: the payload obj events = [obj []] — an events array
whose single element is an object with none of the five required fields —
parses, so commitJsonEdit accepts it (no error) and replaces the stored
events with the malformed element; edits are not validated to be
well-formed Events. -/
theorem jsonEdit_accepts_malformed_event :
    commitJsonEdit (some (JValue.obj [(keyEvents, JValue.arr [JValue.obj []])]))
        [] = ([JValue.obj []], none) ∧
    specWellFormedEvent (JValue.obj []) = false := by
  constructor <;> rfl

/-- C5 (amended): a bulk JSON edit is accepted exactly when the text
parses, the parsed value is truthy and its events property is an array —
the array elements themselves are not validated — and any rejected input
surfaces an error message and leaves the previously stored events
unchanged. -/
theorem jsonEdit_gate (parsed : Option JValue) (prev : List JValue) :
    ((commitJsonEdit parsed prev).2 = none →
      ∃ v evs, parsed = some v ∧ truthy v = true ∧
        getField v keyEvents = some (JValue.arr evs) ∧
        (commitJsonEdit parsed prev).1 = evs) ∧
    ((commitJsonEdit parsed prev).2 ≠ none →
      (commitJsonEdit parsed prev).1 = prev) := by
  cases parsed with
  | none =>
    constructor
    · intro h
      simp [commitJsonEdit] at h
    · intro _
      rfl
  | some v =>
    by_cases ht : truthy v
    · rcases hf : getField v keyEvents with _ | fv
      · constructor
        · intro h
          simp [commitJsonEdit, ht, hf] at h
        · intro _
          simp [commitJsonEdit, ht, hf]
      · cases fv with
        | arr evs =>
          constructor
          · intro _
            exact ⟨v, evs, rfl, ht, hf, by simp [commitJsonEdit, ht, hf]⟩
          · intro h
            exact absurd (by simp [commitJsonEdit, ht, hf]) h
        | null =>
          refine ⟨fun h => absurd h (by simp [commitJsonEdit, ht, hf]), fun _ => ?_⟩
          simp [commitJsonEdit, ht, hf]
        | bool b =>
          refine ⟨fun h => absurd h (by simp [commitJsonEdit, ht, hf]), fun _ => ?_⟩
          simp [commitJsonEdit, ht, hf]
        | num q =>
          refine ⟨fun h => absurd h (by simp [commitJsonEdit, ht, hf]), fun _ => ?_⟩
          simp [commitJsonEdit, ht, hf]
        | str s =>
          refine ⟨fun h => absurd h (by simp [commitJsonEdit, ht, hf]), fun _ => ?_⟩
          simp [commitJsonEdit, ht, hf]
        | obj fields =>
          refine ⟨fun h => absurd h (by simp [commitJsonEdit, ht, hf]), fun _ => ?_⟩
          simp [commitJsonEdit, ht, hf]
    · constructor
      · intro h
        simp [commitJsonEdit, ht] at h
      · intro _
        simp [commitJsonEdit, ht]

theorem jsonEdit_gate_witness :
    (commitJsonEdit none [JValue.null]).1 = [JValue.null] :=
  (jsonEdit_gate none [JValue.null]).2 (by simp [commitJsonEdit])

/-- Appending one results entry: a later write for the same id wins under
jget, any other id reads through to the earlier map. -/
theorem jget_append_singleton {α : Type} (m : List (String × α)) (a k : String)
    (d : α) : jget (m ++ [(a, d)]) k = if k = a then some d else jget m k := by
  unfold jget
  rw [List.reverse_append]
  by_cases h : k = a
  · subst h
    simp
  · rw [if_neg h]
    have hb : (a == k) = false := beq_eq_false_iff_ne.mpr (Ne.symm h)
    simp [hb]

theorem jget_singleton {α : Type} (a : String) (d : α) :
    jget [(a, d)] a = some d := by
  simp [jget]

theorem jget_append_pair {α : Type} (m : List (String × α)) (a b k : String)
    (da db : α) :
    jget (m ++ [(a, da), (b, db)]) k =
      if k = b then some db else if k = a then some da else jget m k := by
  have h : m ++ [(a, da), (b, db)] = (m ++ [(a, da)]) ++ [(b, db)] := by simp
  rw [h, jget_append_singleton, jget_append_singleton]

/-- C3 (amended): when the first call of a run rejects with
MISSING_API_KEY, the run aborts immediately — no target is processed, no
result is written, the remaining targets are never attempted — and the
single rethrown run-level error is surfaced; but because the cancellation
token was never signaled, the finally block does not add the untried
targets to canceledIds (which the run start had just cleared for them),
so they end the run unmarked rather than canceled-or-failed. -/
theorem fatal_missing_key_run (A B : String) (co : Outcome ScreenAnalysisRaw)
    (r0 : List (String × ScreenAnalysisRaw)) :
    (runBatch [(A, Outcome.missingKey), (B, co)] r0).runError =
        some msgMissingApiKey ∧
    (runBatch [(A, Outcome.missingKey), (B, co)] r0).processed = [] ∧
    (runBatch [(A, Outcome.missingKey), (B, co)] r0).map = r0 ∧
    (runBatch [(A, Outcome.missingKey), (B, co)] r0).aborted = false ∧
    (runBatch [(A, Outcome.missingKey), (B, co)] r0).canceled = [] ∧
    (runBatch [(A, Outcome.missingKey), (B, co)] r0).summary = none := by
  simp [runBatch, processLoop]

/-- C3 counterexample: after a MISSING_API_KEY failure at the first target
of the run [A0001, A0002], the not-yet-completed target A0002 ends the run
with no status dot (pending), not the claimed canceled-or-failed mark. -/
theorem fatal_missing_key_leaves_rest_unmarked :
    statusOf (runBatch [(idA, Outcome.missingKey), (idB, Outcome.otherError)]
      ([] : List (String × ScreenAnalysisRaw))) idB = ItemStatus.pending ∧
    ItemStatus.pending ≠ ItemStatus.canceledOrFailed := by
  constructor
  · rfl
  · decide

/-- C1: for a run over distinct targets [A, B, C] where A's call succeeds
with a result for A and cancellation is signaled while B's call is in
flight (its await settles as AbortError, whatever outcome C would have
had), the completion summary reports 1 of 3 completed, B's result is
never written (the results map reads at B exactly as before the run),
A's stored result is intact, A shows completed, and both B and C end the
run marked canceled-or-failed. -/
theorem cancel_midflight_batch (A B C : String) (dA : ScreenAnalysisRaw)
    (co : Outcome ScreenAnalysisRaw) (r0 : List (String × ScreenAnalysisRaw))
    (hBA : B ≠ A) (hCA : C ≠ A) :
    (runBatch [(A, Outcome.ok [(A, dA)]), (B, Outcome.abortError), (C, co)]
        r0).summary = some (1, 3) ∧
    jget (runBatch [(A, Outcome.ok [(A, dA)]), (B, Outcome.abortError), (C, co)]
        r0).map A = some dA ∧
    jget (runBatch [(A, Outcome.ok [(A, dA)]), (B, Outcome.abortError), (C, co)]
        r0).map B = jget r0 B ∧
    statusOf (runBatch [(A, Outcome.ok [(A, dA)]), (B, Outcome.abortError), (C, co)]
        r0) A = ItemStatus.completed ∧
    statusOf (runBatch [(A, Outcome.ok [(A, dA)]), (B, Outcome.abortError), (C, co)]
        r0) B = ItemStatus.canceledOrFailed ∧
    statusOf (runBatch [(A, Outcome.ok [(A, dA)]), (B, Outcome.abortError), (C, co)]
        r0) C = ItemStatus.canceledOrFailed := by
  have hloop : processLoop
      [(A, Outcome.ok [(A, dA)]), (B, Outcome.abortError), (C, co)] r0 =
      { map := r0 ++ [(A, dA)], processed := [A], aborted := true, fatal := none } := by
    simp [processLoop, jget_singleton]
  have hcanceled : (runBatch
      [(A, Outcome.ok [(A, dA)]), (B, Outcome.abortError), (C, co)] r0).canceled
      = [B, C] := by
    simp [runBatch, hloop, hBA, hCA]
  refine ⟨?_, ?_, ?_, ?_, ?_, ?_⟩
  · simp [runBatch, hloop]
  · simp [runBatch, hloop, jget_append_singleton]
  · simp [runBatch, hloop, jget_append_singleton, hBA]
  · have hA : ¬ A ∈ (runBatch
        [(A, Outcome.ok [(A, dA)]), (B, Outcome.abortError), (C, co)] r0).canceled := by
      rw [hcanceled]
      simp [Ne.symm hBA, Ne.symm hCA]
    rw [statusOf, if_neg hA]
    simp [runBatch, hloop, jget_append_singleton]
  · rw [statusOf, if_pos (by rw [hcanceled]; simp)]
  · rw [statusOf, if_pos (by rw [hcanceled]; simp)]

theorem cancel_midflight_batch_witness :
    statusOf (runBatch [(idA, Outcome.ok [(idA, emptyRaw)]),
      (idB, Outcome.abortError), (idC, Outcome.otherError)]
      ([] : List (String × ScreenAnalysisRaw))) idB = ItemStatus.canceledOrFailed :=
  (cancel_midflight_batch idA idB idC emptyRaw Outcome.otherError []
    (by decide) (by decide)).2.2.2.2.1

/-- C4: a malformed Analyzer response for B whose screen object lacks the
annotations array parses to a result for B with the events list preserved
and the annotations defaulted to the empty list rather than raising, and
the run [A, B] in which A succeeds and B returns that malformed response
continues to completion: nothing is marked canceled-or-failed and both A
and B end the run completed, with B's stored result carrying the empty
annotation list. -/
theorem malformed_annotations_default_and_continue (A B : String)
    (dA : ScreenAnalysisRaw) (evs : List JValue)
    (r0 : List (String × ScreenAnalysisRaw)) (hB : B ≠ "") (hAB : A ≠ B) :
    parseGeminiResponse (some (JValue.obj [(keyScreens, JValue.arr
        [JValue.obj [(keyScreenshotId, JValue.str B), (keyEvents, JValue.arr evs)]])]))
      = [(B, { events := evs, annotations := [] })] ∧
    (runBatch [(A, Outcome.ok [(A, dA)]),
        (B, Outcome.ok [(B, ScreenAnalysisRaw.mk evs [])])] r0).canceled = [] ∧
    (runBatch [(A, Outcome.ok [(A, dA)]),
        (B, Outcome.ok [(B, ScreenAnalysisRaw.mk evs [])])] r0).aborted = false ∧
    jget (runBatch [(A, Outcome.ok [(A, dA)]),
        (B, Outcome.ok [(B, ScreenAnalysisRaw.mk evs [])])] r0).map B =
      some (ScreenAnalysisRaw.mk evs []) ∧
    statusOf (runBatch [(A, Outcome.ok [(A, dA)]),
        (B, Outcome.ok [(B, ScreenAnalysisRaw.mk evs [])])] r0) A =
      ItemStatus.completed ∧
    statusOf (runBatch [(A, Outcome.ok [(A, dA)]),
        (B, Outcome.ok [(B, ScreenAnalysisRaw.mk evs [])])] r0) B =
      ItemStatus.completed := by
  have hstep : parseGeminiResponse (some (JValue.obj [(keyScreens, JValue.arr
      [JValue.obj [(keyScreenshotId, JValue.str B), (keyEvents, JValue.arr evs)]])]))
      = if B ≠ "" then
          ([] : List (String × ScreenAnalysisRaw)) ++
            [(B, { events := evs, annotations := [] })]
        else [] := rfl
  have hloop : processLoop [(A, Outcome.ok [(A, dA)]),
      (B, Outcome.ok [(B, ScreenAnalysisRaw.mk evs [])])] r0 =
      { map := r0 ++ [(A, dA), (B, ScreenAnalysisRaw.mk evs [])],
        processed := [A, B], aborted := false, fatal := none } := by
    simp [processLoop, jget_singleton]
  refine ⟨?_, ?_, ?_, ?_, ?_, ?_⟩
  · rw [hstep, if_pos hB]
    rfl
  · simp [runBatch, hloop]
  · simp [runBatch, hloop]
  · simp [runBatch, hloop, jget_append_pair]
  · rw [statusOf, if_neg (by simp [runBatch, hloop])]
    simp [runBatch, hloop, jget_append_pair, hAB]
  · rw [statusOf, if_neg (by simp [runBatch, hloop])]
    simp [runBatch, hloop, jget_append_pair]

theorem malformed_annotations_default_witness :
    statusOf (runBatch [(idA, Outcome.ok [(idA, emptyRaw)]),
      (idB, Outcome.ok [(idB, ScreenAnalysisRaw.mk [] [])])]
      ([] : List (String × ScreenAnalysisRaw))) idB = ItemStatus.completed :=
  (malformed_annotations_default_and_continue idA idB emptyRaw [] []
    (by decide) (by decide)).2.2.2.2.2

theorem renumberEvents_length (i : ℕ) (l : List TaggingEvent) :
    (renumberEvents i l).length = l.length := by
  induction l generalizing i with
  | nil => rfl
  | cons e rest ih => simp [renumberEvents, ih]

theorem renumberEvents_get (l : List TaggingEvent) (i0 i : ℕ)
    (h : i < (renumberEvents i0 l).length) :
    ((renumberEvents i0 l).get ⟨i, h⟩).item_no = (i0 : ℤ) + (i : ℤ) := by
  induction l generalizing i0 i with
  | nil => simp [renumberEvents] at h
  | cons e rest ih =>
    cases i with
    | zero => simp [renumberEvents]
    | succ n =>
      have h2 : n < (renumberEvents (i0 + 1) rest).length := by
        simpa [renumberEvents] using h
      have := ih (i0 + 1) n h2
      simp only [renumberEvents, List.get_cons_succ]
      rw [this]
      push_cast
      ring

theorem buildIdMap_mem (l : List TaggingEvent) (i0 : ℕ) (p : ℤ × ℕ)
    (hp : p ∈ buildIdMap i0 l) :
    ∃ j, ∃ hj : j < l.length, p = ((l.get ⟨j, hj⟩).item_no, i0 + j) := by
  induction l generalizing i0 with
  | nil => simp [buildIdMap] at hp
  | cons e rest ih =>
    simp only [buildIdMap, List.mem_cons] at hp
    rcases hp with h | h
    · exact ⟨0, by simp, by simpa using h⟩
    · rcases ih (i0 + 1) h with ⟨j, hj, he⟩
      refine ⟨j + 1, by simpa using Nat.succ_lt_succ hj, ?_⟩
      rw [he]
      simp only [List.get_cons_succ]
      have : i0 + 1 + j = i0 + (j + 1) := by omega
      rw [this]

theorem mapGet_mem {m : List (ℤ × ℕ)} {k : ℤ} {n : ℕ}
    (h : mapGet m k = some n) : (k, n) ∈ m := by
  unfold mapGet at h
  rcases Option.map_eq_some'.mp h with ⟨q, hfind, hn⟩
  have hpred := List.find?_some hfind
  have hmem : q ∈ m := List.mem_reverse.mp (List.mem_of_find?_eq_some hfind)
  have hk : q.1 = k := by simpa using hpred
  have : q = (k, n) := by
    cases q
    simp only at hk hn
    rw [hk, hn]
  rw [this] at hmem
  exact hmem

/-- C7: after handleDeleteRow deletes an item_no from a Document result,
the remaining events carry the contiguous item_no sequence 1..n (the
event at position i has item_no i + 1), and every surviving annotation is
a renumbered copy of an original annotation whose new item_no is exactly
the renumbered item_no of its paired event — the event that had the same
old item_no, now sitting at position j of the renumbered table with
item_no j + 1. -/
theorem deleteRow_renumbers (itemNo : ℤ) (cur : ScreenAnalysis) :
    (∀ i (h : i < (deleteRow itemNo cur).events.length),
      ((deleteRow itemNo cur).events.get ⟨i, h⟩).item_no = (i : ℤ) + 1) ∧
    (∀ a2 ∈ (deleteRow itemNo cur).annotations,
      ∃ a ∈ cur.annotations, ∃ j, ∃ hj : j < (sortRemaining itemNo cur).length,
        a.item_no ≠ itemNo ∧
        ((sortRemaining itemNo cur).get ⟨j, hj⟩).item_no = a.item_no ∧
        a2 = { a with item_no := (j : ℤ) + 1 } ∧
        ∃ he : j < (deleteRow itemNo cur).events.length,
          ((deleteRow itemNo cur).events.get ⟨j, he⟩).item_no = a2.item_no) := by
  have hev : (deleteRow itemNo cur).events =
      renumberEvents 1 (sortRemaining itemNo cur) := rfl
  have hann : (deleteRow itemNo cur).annotations =
      cur.annotations.filterMap (fun a =>
        match mapGet (buildIdMap 1 (sortRemaining itemNo cur)) a.item_no with
        | some n => some { a with item_no := (n : ℤ) }
        | none => none) := rfl
  have hgetno : ∀ i (h : i < (deleteRow itemNo cur).events.length),
      ((deleteRow itemNo cur).events.get ⟨i, h⟩).item_no = (i : ℤ) + 1 := by
    intro i h
    have h2 : i < (renumberEvents 1 (sortRemaining itemNo cur)).length := by
      rw [← hev]
      exact h
    have hcast : ((deleteRow itemNo cur).events.get ⟨i, h⟩) =
        ((renumberEvents 1 (sortRemaining itemNo cur)).get ⟨i, h2⟩) := by
      congr 1
    rw [hcast, renumberEvents_get]
    ring
  refine ⟨hgetno, ?_⟩
  intro a2 ha2
  rw [hann] at ha2
  obtain ⟨a, hmem, hfa⟩ := List.mem_filterMap.mp ha2
  rcases hg : mapGet (buildIdMap 1 (sortRemaining itemNo cur)) a.item_no with _ | n
  · rw [hg] at hfa
    simp at hfa
  · rw [hg] at hfa
    simp only [Option.some.injEq] at hfa
    obtain ⟨j, hj, heq⟩ := buildIdMap_mem _ _ _ (mapGet_mem hg)
    have hkey : ((sortRemaining itemNo cur).get ⟨j, hj⟩).item_no = a.item_no :=
      (congrArg Prod.fst heq).symm
    have hnval : n = 1 + j := congrArg Prod.snd heq
    have hne : a.item_no ≠ itemNo := by
      rw [← hkey]
      have hsmem : (sortRemaining itemNo cur).get ⟨j, hj⟩ ∈
          sortRemaining itemNo cur := List.get_mem _ _ _
      have hfmem : (sortRemaining itemNo cur).get ⟨j, hj⟩ ∈
          cur.events.filter (fun e => e.item_no ≠ itemNo) := by
        unfold sortRemaining at hsmem
        exact List.mem_mergeSort.mp hsmem
      have := List.of_mem_filter hfmem
      simpa using this
    have he : j < (deleteRow itemNo cur).events.length := by
      rw [hev, renumberEvents_length]
      exact hj
    have ha2eq : a2 = { a with item_no := (j : ℤ) + 1 } := by
      rw [← hfa, hnval]
      have : ((1 + j : ℕ) : ℤ) = (j : ℤ) + 1 := by push_cast; ring
      rw [this]
    refine ⟨a, hmem, j, hj, hne, hkey, ha2eq, he, ?_⟩
    rw [hgetno j he, ha2eq]

theorem deleteRow_renumbers_witness :
    ∃ h : 0 < (deleteRow 2 sampleAnalysis).events.length,
      ((deleteRow 2 sampleAnalysis).events.get ⟨0, h⟩).item_no = 1 := by
  have hfilter : sampleAnalysis.events.filter (fun e => e.item_no ≠ 2) =
      [sampleEvent 1, sampleEvent 3] := rfl
  have hsort : sortRemaining 2 sampleAnalysis = [sampleEvent 1, sampleEvent 3] := by
    unfold sortRemaining
    rw [hfilter]
    exact List.mergeSort_of_sorted (by decide)
  have hlen : (deleteRow 2 sampleAnalysis).events.length = 2 := by
    have hev : (deleteRow 2 sampleAnalysis).events =
        renumberEvents 1 (sortRemaining 2 sampleAnalysis) := rfl
    rw [hev, renumberEvents_length, hsort]
    rfl
  have hpos : 0 < (deleteRow 2 sampleAnalysis).events.length := by
    rw [hlen]
    decide
  refine ⟨hpos, ?_⟩
  have := (deleteRow_renumbers 2 sampleAnalysis).1 0 hpos
  simpa using this

end UI2GA
